import Mathlib

/-
Formal model of the binned multi-observation 3D (spatial x energy)
data-reduction and Poisson maximum-likelihood fitting engine driven by the
notebooks of this repository.  The engine itself (map datasets, stacking,
safe-mask and background makers, the fit statistic, the excess-map
estimator) is implemented in an external library and is not part of the
repository sources, so every component below is modelled from the
specification.  Arrays over the flattened pixel x energy-bin grid are
functions `Fin N → ℚ`; boolean masks are `Fin N → Bool`.
-/

/-- Modelled from the spec: a reduced/stacked map dataset on a reference
geometry of `N` flattened pixel x energy bins.  `support` marks the
bins of the (cutout) sub-geometry the dataset lives on; `response` is the
combined PSF/energy-dispersion kernel folding true-energy bins into
measured bins; `mask_safe` is the data-validity mask and `mask_fit` the
caller-chosen analysis mask. -/
structure MapDataset (N : ℕ) where
  support : Fin N → Bool
  counts : Fin N → ℚ
  background : Fin N → ℚ
  exposure : Fin N → ℚ
  response : Fin N → Fin N → ℚ
  mask_safe : Fin N → Bool
  mask_fit : Fin N → Bool

/-- Modelled from the spec: the initially all-zero stacking accumulator
defined on the full reference geometry. -/
def MapDataset.empty (N : ℕ) : MapDataset N where
  support := fun _ => true
  counts := fun _ => 0
  background := fun _ => 0
  exposure := fun _ => 0
  response := fun _ _ => 0
  mask_safe := fun _ => false
  mask_fit := fun _ => false

/-- Counts contribution of a dataset at a bin: its counts on its
sub-geometry, nothing outside it. -/
def MapDataset.contribCounts (d : MapDataset N) (i : Fin N) : ℚ :=
  if d.support i then d.counts i else 0

/-- Background contribution of a dataset at a bin. -/
def MapDataset.contribBackground (d : MapDataset N) (i : Fin N) : ℚ :=
  if d.support i then d.background i else 0

/-- Exposure contribution of a dataset at a bin. -/
def MapDataset.contribExposure (d : MapDataset N) (i : Fin N) : ℚ :=
  if d.support i then d.exposure i else 0

/-- Safe-mask contribution of a dataset at a bin: its mask restricted to
its sub-geometry. -/
def MapDataset.contribMask (d : MapDataset N) (i : Fin N) : Bool :=
  d.support i && d.mask_safe i

/-- Modelled from the spec: merge one reduced dataset into the
accumulator.  Counts, background and exposure add elementwise on the
overlap (the incoming dataset's sub-geometry) and are untouched outside
it; the response kernel is combined by exposure-weighted averaging; the
stacked safe mask is the union of the masks restricted to bins with
nonzero accumulated exposure. -/
def MapDataset.stack (acc d : MapDataset N) : MapDataset N where
  support := acc.support
  counts := fun i => acc.counts i + d.contribCounts i
  background := fun i => acc.background i + d.contribBackground i
  exposure := fun i => acc.exposure i + d.contribExposure i
  response := fun i j =>
    if acc.exposure i + d.contribExposure i = 0 then acc.response i j
    else (acc.exposure i * acc.response i j +
      d.contribExposure i * d.response i j) / (acc.exposure i + d.contribExposure i)
  mask_safe := fun i =>
    (acc.mask_safe i || d.contribMask i) &&
      decide (acc.exposure i + d.contribExposure i ≠ 0)
  mask_fit := acc.mask_fit

/-- Fold a list of reduced datasets into the accumulator, one stack step
per dataset. -/
def MapDataset.stackAll (acc : MapDataset N) (l : List (MapDataset N)) : MapDataset N :=
  l.foldl MapDataset.stack acc

theorem stackAll_counts (l : List (MapDataset N)) (acc : MapDataset N) (i : Fin N) :
    (acc.stackAll l).counts i = acc.counts i + (l.map (fun d => d.contribCounts i)).sum := by
  induction l generalizing acc with
  | nil => simp [MapDataset.stackAll]
  | cons d l ih =>
    simp only [MapDataset.stackAll, List.foldl_cons, List.map_cons, List.sum_cons]
    rw [show (List.foldl MapDataset.stack (acc.stack d) l) = (acc.stack d).stackAll l from rfl,
      ih]
    simp [MapDataset.stack, add_assoc]

theorem stackAll_background (l : List (MapDataset N)) (acc : MapDataset N) (i : Fin N) :
    (acc.stackAll l).background i =
      acc.background i + (l.map (fun d => d.contribBackground i)).sum := by
  induction l generalizing acc with
  | nil => simp [MapDataset.stackAll]
  | cons d l ih =>
    simp only [MapDataset.stackAll, List.foldl_cons, List.map_cons, List.sum_cons]
    rw [show (List.foldl MapDataset.stack (acc.stack d) l) = (acc.stack d).stackAll l from rfl,
      ih]
    simp [MapDataset.stack, add_assoc]

theorem stackAll_exposure (l : List (MapDataset N)) (acc : MapDataset N) (i : Fin N) :
    (acc.stackAll l).exposure i =
      acc.exposure i + (l.map (fun d => d.contribExposure i)).sum := by
  induction l generalizing acc with
  | nil => simp [MapDataset.stackAll]
  | cons d l ih =>
    simp only [MapDataset.stackAll, List.foldl_cons, List.map_cons, List.sum_cons]
    rw [show (List.foldl MapDataset.stack (acc.stack d) l) = (acc.stack d).stackAll l from rfl,
      ih]
    simp [MapDataset.stack, add_assoc]

/-- Claim C2: stacking three reduced datasets onto the accumulator in any
order yields identical counts, exposure and background arrays (exactly,
in the rational model, hence within floating-point tolerance in the
implementation). -/
theorem stack_counts_exposure_background_perm (acc A B C : MapDataset N)
    (l : List (MapDataset N)) (hl : l.Perm [A, B, C]) :
    (acc.stackAll l).counts = (acc.stackAll [A, B, C]).counts ∧
    (acc.stackAll l).exposure = (acc.stackAll [A, B, C]).exposure ∧
    (acc.stackAll l).background = (acc.stackAll [A, B, C]).background := by
  refine ⟨funext fun i => ?_, funext fun i => ?_, funext fun i => ?_⟩
  · rw [stackAll_counts, stackAll_counts, (hl.map (fun d => d.contribCounts i)).sum_eq]
  · rw [stackAll_exposure, stackAll_exposure, (hl.map (fun d => d.contribExposure i)).sum_eq]
  · rw [stackAll_background, stackAll_background,
      (hl.map (fun d => d.contribBackground i)).sum_eq]

/-- Sample dataset used to instantiate the stacking permutation theorem. -/
def sampleA : MapDataset 1 :=
  ⟨fun _ => true, fun _ => 3, fun _ => 1, fun _ => 5, fun _ _ => 0,
    fun _ => true, fun _ => false⟩

/-- Second sample dataset for the stacking permutation witness. -/
def sampleB : MapDataset 1 :=
  ⟨fun _ => true, fun _ => 7, fun _ => 2, fun _ => 11, fun _ _ => 0,
    fun _ => true, fun _ => false⟩

/-- Third sample dataset for the stacking permutation witness. -/
def sampleC : MapDataset 1 :=
  ⟨fun _ => false, fun _ => 9, fun _ => 4, fun _ => 13, fun _ _ => 0,
    fun _ => true, fun _ => false⟩

theorem stack_counts_exposure_background_perm_witness :
    ((MapDataset.empty 1).stackAll [sampleB, sampleA, sampleC]).counts =
      ((MapDataset.empty 1).stackAll [sampleA, sampleB, sampleC]).counts ∧
    ((MapDataset.empty 1).stackAll [sampleB, sampleA, sampleC]).exposure =
      ((MapDataset.empty 1).stackAll [sampleA, sampleB, sampleC]).exposure ∧
    ((MapDataset.empty 1).stackAll [sampleB, sampleA, sampleC]).background =
      ((MapDataset.empty 1).stackAll [sampleA, sampleB, sampleC]).background :=
  stack_counts_exposure_background_perm (MapDataset.empty 1) sampleA sampleB sampleC
    [sampleB, sampleA, sampleC] (List.Perm.swap sampleA sampleB [sampleC])

/-- Modelled from the spec: a physically well-formed reduced dataset has
nonnegative exposure everywhere and positive exposure on every bin its
safe mask marks trustworthy. -/
def MapDataset.WellFormed (d : MapDataset N) : Prop :=
  (∀ i, 0 ≤ d.exposure i) ∧
    ∀ i, d.support i = true → d.mask_safe i = true → 0 < d.exposure i

/-- Accumulator invariant maintained by stacking: nonnegative exposure,
and the safe mask only holds where exposure is positive. -/
def MapDataset.ExposureOk (acc : MapDataset N) : Prop :=
  (∀ i, 0 ≤ acc.exposure i) ∧ ∀ i, acc.mask_safe i = true → 0 < acc.exposure i

theorem contribExposure_nonneg (d : MapDataset N) (hd : ∀ i, 0 ≤ d.exposure i) (i : Fin N) :
    0 ≤ d.contribExposure i := by
  unfold MapDataset.contribExposure
  split <;> simp [hd i]

theorem stack_exposureOk (acc d : MapDataset N) (hacc : acc.ExposureOk)
    (hd : ∀ i, 0 ≤ d.exposure i) : (acc.stack d).ExposureOk := by
  constructor
  · intro i
    exact add_nonneg (hacc.1 i) (contribExposure_nonneg d hd i)
  · intro i hm
    have h1 : decide (acc.exposure i + d.contribExposure i ≠ 0) = true := by
      have := hm
      simp only [MapDataset.stack, Bool.and_eq_true] at this
      exact this.2
    have h2 : acc.exposure i + d.contribExposure i ≠ 0 := of_decide_eq_true h1
    have h3 : 0 ≤ acc.exposure i + d.contribExposure i :=
      add_nonneg (hacc.1 i) (contribExposure_nonneg d hd i)
    have : (acc.stack d).exposure i = acc.exposure i + d.contribExposure i := rfl
    rw [this]
    exact lt_of_le_of_ne h3 (Ne.symm h2)

theorem stackAll_exposureOk (l : List (MapDataset N)) (acc : MapDataset N)
    (hacc : acc.ExposureOk) (hl : ∀ d ∈ l, ∀ i, 0 ≤ d.exposure i) :
    (acc.stackAll l).ExposureOk := by
  induction l generalizing acc with
  | nil => exact hacc
  | cons d l ih =>
    exact ih (acc.stack d) (stack_exposureOk acc d hacc (hl d (by simp)))
      (fun x hx => hl x (by simp [hx]))

theorem stackAll_mask (l : List (MapDataset N)) (acc : MapDataset N)
    (hacc : acc.ExposureOk) (hl : ∀ d ∈ l, d.WellFormed) (i : Fin N) :
    (acc.stackAll l).mask_safe i =
      ((acc.mask_safe i || l.any (fun d => d.contribMask i)) &&
        decide ((acc.stackAll l).exposure i ≠ 0)) := by
  induction l generalizing acc with
  | nil =>
    simp only [MapDataset.stackAll, List.foldl_nil, List.any_nil, Bool.or_false]
    cases hm : acc.mask_safe i with
    | false => simp
    | true => simp [(hacc.2 i hm).ne']
  | cons d l ih =>
    have hdwf : d.WellFormed := hl d (by simp)
    have hacc' : (acc.stack d).ExposureOk := stack_exposureOk acc d hacc hdwf.1
    have step : (acc.stackAll (d :: l)) = ((acc.stack d).stackAll l) := rfl
    rw [step, ih (acc.stack d) hacc' (fun x hx => hl x (by simp [hx]))]
    cases hE : decide (((acc.stack d).stackAll l).exposure i ≠ 0) with
    | false => simp
    | true =>
      simp only [Bool.and_true]
      have hmask : (acc.stack d).mask_safe i =
          ((acc.mask_safe i || d.contribMask i) &&
            decide (acc.exposure i + d.contribExposure i ≠ 0)) := rfl
      rw [hmask, List.any_cons]
      cases hX : (acc.mask_safe i || d.contribMask i) with
      | false =>
        have h1 : acc.mask_safe i = false := by
          rcases Bool.or_eq_false_iff.mp hX with ⟨h, _⟩; exact h
        have h2 : d.contribMask i = false := by
          rcases Bool.or_eq_false_iff.mp hX with ⟨_, h⟩; exact h
        simp [h1, h2]
      | true =>
        have hpos : 0 < acc.exposure i + d.contribExposure i := by
          rcases Bool.or_eq_true_iff.mp hX with hm | hm
          · have h1 : 0 < acc.exposure i := hacc.2 i hm
            have h2 : 0 ≤ d.contribExposure i := contribExposure_nonneg d hdwf.1 i
            linarith
          · have hm' := hm
            simp only [MapDataset.contribMask, Bool.and_eq_true] at hm'
            have h1 : 0 < d.exposure i := hdwf.2 i hm'.1 hm'.2
            have hsup : d.support i = true := hm'.1
            have h2 : d.contribExposure i = d.exposure i := by
              simp [MapDataset.contribExposure, hsup]
            have h3 : 0 ≤ acc.exposure i := hacc.1 i
            rw [h2] at *
            linarith
        have : decide (acc.exposure i + d.contribExposure i ≠ 0) = true := by
          simp [hpos.ne']
        rcases Bool.or_eq_true_iff.mp hX with hm | hm
        · simp [this, hm]
        · simp [this, hm]

/-- Claim C3: a single stack step adds counts, background and exposure
elementwise on the overlap region, is a no-op outside it (including the
response kernel, which on the overlap is combined by exposure-weighted
averaging), and after any sequence of stack steps starting from the empty
accumulator the safe mask equals the union (logical OR) of the
contributing datasets' masks restricted to bins of nonzero accumulated
exposure. -/
theorem stack_merge_exact_mask_union (acc d : MapDataset N) (l : List (MapDataset N))
    (hl : ∀ x ∈ l, x.WellFormed) :
    (∀ i, d.support i = true →
      (acc.stack d).counts i = acc.counts i + d.counts i ∧
      (acc.stack d).background i = acc.background i + d.background i ∧
      (acc.stack d).exposure i = acc.exposure i + d.exposure i ∧
      (∀ j, acc.exposure i + d.exposure i ≠ 0 →
        (acc.stack d).response i j =
          (acc.exposure i * acc.response i j + d.exposure i * d.response i j) /
            (acc.exposure i + d.exposure i))) ∧
    (∀ i, d.support i = false →
      (acc.stack d).counts i = acc.counts i ∧
      (acc.stack d).background i = acc.background i ∧
      (acc.stack d).exposure i = acc.exposure i ∧
      ∀ j, (acc.stack d).response i j = acc.response i j) ∧
    (∀ i, ((MapDataset.empty N).stackAll l).mask_safe i =
      ((l.any (fun x => x.support i && x.mask_safe i)) &&
        decide (((MapDataset.empty N).stackAll l).exposure i ≠ 0))) := by
  refine ⟨fun i hs => ?_, fun i hs => ?_, fun i => ?_⟩
  · have hc : d.contribCounts i = d.counts i := by simp [MapDataset.contribCounts, hs]
    have hb : d.contribBackground i = d.background i := by
      simp [MapDataset.contribBackground, hs]
    have he : d.contribExposure i = d.exposure i := by simp [MapDataset.contribExposure, hs]
    refine ⟨by simp [MapDataset.stack, hc], by simp [MapDataset.stack, hb],
      by simp [MapDataset.stack, he], fun j hne => ?_⟩
    simp [MapDataset.stack, he, hne]
  · have hc : d.contribCounts i = 0 := by simp [MapDataset.contribCounts, hs]
    have hb : d.contribBackground i = 0 := by simp [MapDataset.contribBackground, hs]
    have he : d.contribExposure i = 0 := by simp [MapDataset.contribExposure, hs]
    refine ⟨by simp [MapDataset.stack, hc], by simp [MapDataset.stack, hb],
      by simp [MapDataset.stack, he], fun j => ?_⟩
    by_cases hz : acc.exposure i = 0
    · simp [MapDataset.stack, he, hz]
    · simp [MapDataset.stack, he, hz]
  · have hok : (MapDataset.empty N).ExposureOk := by
      constructor <;> intro i' <;> simp [MapDataset.empty]
    have := stackAll_mask l (MapDataset.empty N) hok hl i
    rw [this]
    have hemp : (MapDataset.empty N).mask_safe i = false := rfl
    rw [hemp]
    simp [MapDataset.contribMask]

theorem stack_merge_exact_mask_union_witness :
    ((MapDataset.empty 1).stack sampleA).counts 0 =
        (MapDataset.empty 1).counts 0 + sampleA.counts 0 ∧
      ((MapDataset.empty 1).stackAll [sampleA]).mask_safe 0 =
        ((([sampleA]).any (fun x => x.support 0 && x.mask_safe 0)) &&
          decide (((MapDataset.empty 1).stackAll [sampleA]).exposure 0 ≠ 0)) := by
  have h := stack_merge_exact_mask_union (MapDataset.empty 1) sampleA [sampleA]
    (by intro x hx
        have : x = sampleA := by simpa using hx
        subst this
        constructor
        · intro i; norm_num [sampleA]
        · intro i _ _; norm_num [sampleA])
  exact ⟨(h.1 0 (by norm_num [sampleA])).1, h.2.2 0⟩

/-- Modelled from the spec: a sky model's predicted differential flux on
the true-energy grid, at its current parameter values. -/
structure SkyModel (N : ℕ) where
  flux : Fin N → ℚ

/-- Modelled from the spec: the background model, a multiplicative norm
applied to the dataset's predicted background. -/
structure FoVBackgroundModel where
  norm : ℚ

/-- Modelled from the spec: the model collection attached to a stacked
dataset: zero or more sky models plus exactly one background model. -/
structure Models (N : ℕ) where
  sky : List (SkyModel N)
  bkg : FoVBackgroundModel

/-- Modelled from the spec: predicted counts in a measured bin — every
sky model's flux folded through the dataset's exposure and its combined
PSF/energy-dispersion response, plus the background model's predicted
counts. -/
def npredTotal (ds : MapDataset N) (ms : Models N) (i : Fin N) : ℚ :=
  (ms.sky.map (fun m => ∑ j, ds.response i j * (ds.exposure j * m.flux j))).sum +
    ms.bkg.norm * ds.background i

/-- Modelled from the spec: the combined fit mask of a dataset — the
data-validity mask AND the caller's analysis mask. -/
def MapDataset.mask (ds : MapDataset N) (i : Fin N) : Bool :=
  ds.mask_safe i && ds.mask_fit i

/-- Per-bin Poisson deviance contribution `2 * (npred - counts * ln npred)`;
the logarithm is passed in as an abstract function `logF`. -/
def statBin (logF : ℚ → ℚ) (ds : MapDataset N) (ms : Models N) (i : Fin N) : ℚ :=
  2 * (npredTotal ds ms i - ds.counts i * logF (npredTotal ds ms i))

/-- Modelled from the spec: the fit statistic of one dataset, summing the
per-bin deviance over the bins selected by the combined fit mask. -/
def stat_sum (logF : ℚ → ℚ) (ds : MapDataset N) (ms : Models N) : ℚ :=
  ∑ i ∈ Finset.univ.filter (fun i => ds.mask i = true), statBin logF ds ms i

/-- Modelled from the spec: the objective minimized by a fit invocation
over a list of datasets with attached models. -/
def fitTotalStat (logF : ℚ → ℚ) (dss : List (MapDataset N × Models N)) : ℚ :=
  (dss.map (fun p => stat_sum logF p.1 p.2)).sum

/-- Formula written from the claim's words: total Poisson deviance
`2 * Σ (npred - counts * ln npred)` taken over all bins with nonzero
mask_fit (alone), summed across datasets. -/
def specStatMaskFitOnly (logF : ℚ → ℚ) (dss : List (MapDataset N × Models N)) : ℚ :=
  2 * (dss.map (fun p =>
    ∑ i ∈ Finset.univ.filter (fun i => p.1.mask_fit i = true),
      (npredTotal p.1 p.2 i - p.1.counts i * logF (npredTotal p.1 p.2 i)))).sum

/-- Formula written from the amended claim's words: total Poisson
deviance over all bins with nonzero mask_fit AND nonzero mask_safe,
summed across datasets. -/
def specStatMaskFitAndSafe (logF : ℚ → ℚ) (dss : List (MapDataset N × Models N)) : ℚ :=
  2 * (dss.map (fun p =>
    ∑ i ∈ Finset.univ.filter (fun i => (p.1.mask_fit i && p.1.mask_safe i) = true),
      (npredTotal p.1 p.2 i - p.1.counts i * logF (npredTotal p.1 p.2 i)))).sum

/-- Dataset exhibiting the difference between summing over mask_fit alone
and the combined mask: its single bin has mask_fit set but mask_safe
cleared. -/
def unsafeBinDs : MapDataset 1 :=
  ⟨fun _ => true, fun _ => 0, fun _ => 1, fun _ => 0, fun _ _ => 0,
    fun _ => false, fun _ => true⟩

/-- Model collection (no sky model, background norm 1) for the
counterexample dataset. -/
def unsafeBinModels : Models 1 :=
  ⟨[], ⟨1⟩⟩

/-- Claim C1 counterexample: on a dataset whose single bin has nonzero
mask_fit but zero mask_safe, the minimized objective differs from the
deviance summed over all bins with nonzero mask_fit, so the claim as
stated fails. -/
theorem stat_sum_mask_fit_only_counterexample :
    fitTotalStat (fun x => x) [(unsafeBinDs, unsafeBinModels)] ≠
      specStatMaskFitOnly (fun x => x) [(unsafeBinDs, unsafeBinModels)] := by
  have h1 : fitTotalStat (fun x => x) [(unsafeBinDs, unsafeBinModels)] = 0 := by
    simp [fitTotalStat, stat_sum, MapDataset.mask, unsafeBinDs, Finset.filter_eq_empty_iff]
  have h2 : specStatMaskFitOnly (fun x => x) [(unsafeBinDs, unsafeBinModels)] = 2 := by
    have hfil : (Finset.univ.filter (fun i : Fin 1 => unsafeBinDs.mask_fit i = true)) =
        Finset.univ := by
      apply Finset.filter_true_of_mem
      intro i _
      rfl
    simp [specStatMaskFitOnly, hfil, npredTotal, unsafeBinDs, unsafeBinModels]
  rw [h1, h2]
  norm_num

/-- Claim C1 (amended): the minimized objective equals the total Poisson
deviance `2 * Σ (npred - counts * ln npred)` over all bins with nonzero
mask_fit and nonzero mask_safe, summed across datasets, with npred each
model's flux folded through exposure and the PSF/energy-dispersion
response plus the background model's predicted counts. -/
theorem fit_objective_total_deviance (logF : ℚ → ℚ)
    (dss : List (MapDataset N × Models N)) :
    fitTotalStat logF dss = specStatMaskFitAndSafe logF dss := by
  unfold fitTotalStat specStatMaskFitAndSafe
  rw [← List.sum_map_mul_left]
  congr 1
  apply List.map_congr_left
  intro p _
  rw [stat_sum, Finset.mul_sum]
  apply Finset.sum_congr
  · apply Finset.filter_congr
    intro i _
    simp [MapDataset.mask, Bool.and_comm]
  · intro i _
    rfl

/-- Claim C10: a bin excluded by mask_safe contributes nothing to the fit
statistic even when mask_fit is set there — clearing its mask_fit changes
nothing, because the effective fit region is mask_safe AND mask_fit. -/
theorem mask_safe_excludes_bin_from_stat (logF : ℚ → ℚ) (ds : MapDataset N)
    (ms : Models N) (j : Fin N) (h : ds.mask_safe j = false) :
    ds.mask j = false ∧
      stat_sum logF
        { ds with mask_fit := fun i => if i = j then false else ds.mask_fit i } ms =
        stat_sum logF ds ms := by
  constructor
  · simp [MapDataset.mask, h]
  · unfold stat_sum
    apply Finset.sum_congr
    · apply Finset.filter_congr
      intro i _
      by_cases hij : i = j
      · subst hij
        simp [MapDataset.mask, h]
      · simp [MapDataset.mask, hij]
    · intro i _
      rfl

theorem mask_safe_excludes_bin_from_stat_witness :
    unsafeBinDs.mask 0 = false ∧
      stat_sum (fun x => x)
        { unsafeBinDs with mask_fit := fun i => if i = 0 then false else unsafeBinDs.mask_fit i }
        unsafeBinModels =
        stat_sum (fun x => x) unsafeBinDs unsafeBinModels :=
  mask_safe_excludes_bin_from_stat (fun x => x) unsafeBinDs unsafeBinModels 0 rfl

/-- Modelled from the spec: a model parameter with value, bounds and a
frozen/free flag. -/
structure Parameter where
  value : ℚ
  vmin : ℚ
  vmax : ℚ
  frozen : Bool

/-- A parameter's starting value lies inside its bounds. -/
def Parameter.inBounds (p : Parameter) : Bool :=
  decide (p.vmin ≤ p.value) && decide (p.value ≤ p.vmax)

/-- Modelled from the spec: outcome states of a fit invocation. -/
inductive FitStatus where
  | converged : FitStatus
  | nonConvergence : FitStatus
  | invalidModel : FitStatus

/-- Modelled from the spec: the state a fit invocation acts on — one
stacked dataset and the attached flattened parameter list. -/
structure FitState (N : ℕ) where
  dataset : MapDataset N
  params : List Parameter

/-- One optimizer update: the supplied step function is applied to every
free parameter's value; frozen parameters are untouched. -/
def updateFree (f : ℚ → ℚ) (ps : List Parameter) : List Parameter :=
  ps.map (fun p => if p.frozen then p else { p with value := f p.value })

/-- Iterative bounded optimization: stop converged when the supplied
convergence test holds, otherwise apply one update, until the
iteration budget is exhausted. -/
def fitLoop (f : ℚ → ℚ) (conv : List Parameter → Bool) :
    ℕ → FitState N → FitStatus × FitState N
  | 0, s => (FitStatus.nonConvergence, s)
  | n + 1, s =>
    if conv s.params then (FitStatus.converged, s)
    else fitLoop f conv n { s with params := updateFree f s.params }

/-- Modelled from the spec: a fit invocation — validate the starting
parameter values against their bounds (invalid-model failure, fit not
attempted) and otherwise run the bounded optimizer loop. -/
def fitRun (f : ℚ → ℚ) (conv : List Parameter → Bool) (budget : ℕ)
    (s : FitState N) : FitStatus × FitState N :=
  if s.params.all Parameter.inBounds then fitLoop f conv budget s
  else (FitStatus.invalidModel, s)

/-- Value of every frozen parameter (and a placeholder for free ones):
two parameter lists agreeing here have identical frozen state. -/
def frozenValues (ps : List Parameter) : List (Option ℚ) :=
  ps.map (fun p => if p.frozen then some p.value else none)

theorem updateFree_frozenValues (f : ℚ → ℚ) (ps : List Parameter) :
    frozenValues (updateFree f ps) = frozenValues ps := by
  unfold frozenValues updateFree
  rw [List.map_map]
  apply List.map_congr_left
  intro p _
  by_cases hp : p.frozen <;> simp [hp]

theorem fitLoop_preserves (f : ℚ → ℚ) (conv : List Parameter → Bool) (budget : ℕ)
    (s : FitState N) :
    (fitLoop f conv budget s).2.dataset = s.dataset ∧
      frozenValues (fitLoop f conv budget s).2.params = frozenValues s.params := by
  induction budget generalizing s with
  | zero => exact ⟨rfl, rfl⟩
  | succ n ih =>
    unfold fitLoop
    by_cases hc : conv s.params
    · simp [hc]
    · simp only [hc, if_false, Bool.false_eq_true]
      refine ⟨(ih _).1, ?_⟩
      rw [(ih _).2]
      exact updateFree_frozenValues f s.params

/-- Claim C7: a fit invocation — whether it converges, exhausts its
budget, or aborts on an invalid model — never changes the dataset's
counts, background, exposure arrays or its masks, and never changes a
frozen parameter; only free parameter values are updated. -/
theorem fit_run_preserves_dataset (f : ℚ → ℚ) (conv : List Parameter → Bool)
    (budget : ℕ) (s : FitState N) :
    (fitRun f conv budget s).2.dataset.counts = s.dataset.counts ∧
    (fitRun f conv budget s).2.dataset.background = s.dataset.background ∧
    (fitRun f conv budget s).2.dataset.exposure = s.dataset.exposure ∧
    (fitRun f conv budget s).2.dataset.mask_safe = s.dataset.mask_safe ∧
    (fitRun f conv budget s).2.dataset.mask_fit = s.dataset.mask_fit ∧
    frozenValues (fitRun f conv budget s).2.params = frozenValues s.params := by
  have h : (fitRun f conv budget s).2.dataset = s.dataset ∧
      frozenValues (fitRun f conv budget s).2.params = frozenValues s.params := by
    unfold fitRun
    by_cases hv : s.params.all Parameter.inBounds
    · simp only [hv, if_true]
      exact fitLoop_preserves f conv budget s
    · simp [hv]
  exact ⟨by rw [h.1], by rw [h.1], by rw [h.1], by rw [h.1], by rw [h.1], h.2⟩

/-- Modelled from the spec: the reference geometry — its footprint over
the flattened bin grid and the spatial position of each bin (used by the
fixed-radius smoothing kernel). -/
structure Geometry (N : ℕ) where
  footprint : Fin N → Bool
  pos : Fin N → ℚ × ℚ

/-- Modelled from the spec: one observation's calibrated data and
response evaluated on the reference grid — sky coverage, binned event
counts, predicted background rate, exposure and combined response, plus
the per-bin field-of-view offset, effective-area fraction of peak, and
reconstructed energy used by the safe-mask criteria. -/
structure Observation (N : ℕ) where
  coverage : Fin N → Bool
  counts : Fin N → ℚ
  background : Fin N → ℚ
  exposure : Fin N → ℚ
  response : Fin N → Fin N → ℚ
  offset : Fin N → ℚ
  aeffFrac : Fin N → ℚ
  energy : Fin N → ℚ

/-- Modelled from the spec: errors of the per-observation reduction
stage. -/
inductive ReductionError where
  | coverage : ReductionError

/-- An observation's coverage intersects the requested geometry
footprint somewhere. -/
def overlapsGeom (geom : Geometry N) (obs : Observation N) : Bool :=
  (List.finRange N).any (fun i => obs.coverage i && geom.footprint i)

/-- Modelled from the spec: per-observation reduction — fill a map
dataset on the cutout where the observation's coverage meets the
footprint; fail with a coverage error (non-fatal to the loop) when they
do not intersect at all. -/
def MapDatasetMaker.run (geom : Geometry N) (obs : Observation N) :
    Except ReductionError (MapDataset N) :=
  if overlapsGeom geom obs then
    Except.ok
      { support := fun i => obs.coverage i && geom.footprint i
        counts := fun i => if obs.coverage i && geom.footprint i then obs.counts i else 0
        background := fun i =>
          if obs.coverage i && geom.footprint i then obs.background i else 0
        exposure := fun i => if obs.coverage i && geom.footprint i then obs.exposure i else 0
        response := obs.response
        mask_safe := fun i => obs.coverage i && geom.footprint i
        mask_fit := fun _ => false }
  else Except.error ReductionError.coverage

/-- Modelled from the spec: the data-reduction loop — reduce each
observation in turn and stack the result onto the accumulator; a
reduction failure skips that observation and the loop continues. -/
def reductionLoop (geom : Geometry N) (obss : List (Observation N))
    (acc : MapDataset N) : MapDataset N :=
  obss.foldl (fun a obs =>
    match MapDatasetMaker.run geom obs with
    | Except.error _ => a
    | Except.ok d => a.stack d) acc

/-- Claim C6: an observation whose coverage does not intersect the
geometry footprint is skipped non-fatally — the loop over the remaining
observations proceeds as if it were absent, so it contributes nothing to
the stacked accumulator. -/
theorem coverage_miss_skips_observation (geom : Geometry N) (obs : Observation N)
    (h : overlapsGeom geom obs = false) (xs ys : List (Observation N))
    (acc : MapDataset N) :
    reductionLoop geom (xs ++ obs :: ys) acc = reductionLoop geom (xs ++ ys) acc := by
  unfold reductionLoop
  rw [List.foldl_append, List.foldl_append, List.foldl_cons]
  congr 1
  simp [MapDatasetMaker.run, h]

/-- Observation with empty coverage, used to instantiate the
skip theorem. -/
def obsNoCoverage : Observation 1 :=
  ⟨fun _ => false, fun _ => 2, fun _ => 1, fun _ => 1, fun _ _ => 0,
    fun _ => 0, fun _ => 1, fun _ => 1⟩

/-- Observation covering the whole reference footprint, used in
witnesses. -/
def obsFull : Observation 1 :=
  ⟨fun _ => true, fun _ => 4, fun _ => 2, fun _ => 3, fun _ _ => 0,
    fun _ => 1, fun _ => 1, fun _ => 2⟩

/-- Reference geometry on a single bin, used in witnesses. -/
def geomOne : Geometry 1 :=
  ⟨fun _ => true, fun _ => (0, 0)⟩

theorem coverage_miss_skips_observation_witness :
    reductionLoop geomOne [obsFull, obsNoCoverage] (MapDataset.empty 1) =
      reductionLoop geomOne [obsFull] (MapDataset.empty 1) :=
  coverage_miss_skips_observation geomOne obsNoCoverage (by decide)
    [obsFull] [] (MapDataset.empty 1)

/-- Name of the maximum field-of-view offset criterion. -/
def offsetMaxName : String := "offset-max"

/-- Name of the minimum effective-area-fraction criterion. -/
def aeffMaxName : String := "aeff-max"

/-- Name of the background-peak-derived energy-threshold criterion. -/
def bkgPeakName : String := "bkg-peak"

/-- Modelled from the spec: the named safe-range criteria. -/
inductive SafeMethod where
  | offsetMax : SafeMethod
  | aeffMax : SafeMethod
  | bkgPeak : SafeMethod

/-- Modelled from the spec: thresholds of the safe-range criteria — the
maximum field-of-view offset, the minimum effective-area fraction of
peak, and the minimum reconstructed energy derived from the background
peak. -/
structure SafeMaskConfig where
  offset_max : ℚ
  aeff_frac_min : ℚ
  energy_min : ℚ

/-- Modelled from the spec: a configuration error — an unknown criterion
name is reported, never silently ignored. -/
inductive ConfigError where
  | unknownMethod : String → ConfigError

/-- Resolve a criterion name; unknown names yield none. -/
def parseSafeMethod (s : String) : Option SafeMethod :=
  if s = offsetMaxName then some SafeMethod.offsetMax
  else if s = aeffMaxName then some SafeMethod.aeffMax
  else if s = bkgPeakName then some SafeMethod.bkgPeak
  else none

/-- Modelled from the spec: each criterion's own validity mask, a pure
function of the observation and its threshold alone. -/
def criterionMask (cfg : SafeMaskConfig) (obs : Observation N) :
    SafeMethod → Fin N → Bool
  | SafeMethod.offsetMax, i => decide (obs.offset i ≤ cfg.offset_max)
  | SafeMethod.aeffMax, i => decide (cfg.aeff_frac_min ≤ obs.aeffFrac i)
  | SafeMethod.bkgPeak, i => decide (cfg.energy_min ≤ obs.energy i)

/-- Resolve a whole list of criterion names, failing on the first
unknown one. -/
def parseMethods : List String → Except ConfigError (List SafeMethod)
  | [] => Except.ok []
  | m :: rest =>
    match parseSafeMethod m with
    | none => Except.error (ConfigError.unknownMethod m)
    | some c => (parseMethods rest).map (fun cs => c :: cs)

/-- Modelled from the spec: the safe-mask filter — resolve the requested
criterion names (unknown names are a configuration error) and return the
elementwise AND of the per-criterion masks. -/
def SafeMaskMaker.run (cfg : SafeMaskConfig) (methods : List String)
    (obs : Observation N) : Except ConfigError (Fin N → Bool) :=
  (parseMethods methods).map (fun cs i => cs.all (fun c => criterionMask cfg obs c i))

theorem parseMethods_ok_all (cfg : SafeMaskConfig) (obs : Observation N)
    (methods : List String) (cs : List SafeMethod)
    (h : parseMethods methods = Except.ok cs) (i : Fin N) :
    cs.all (fun c => criterionMask cfg obs c i) =
      methods.all (fun m =>
        ((parseSafeMethod m).map (fun c => criterionMask cfg obs c i)).getD true) := by
  induction methods generalizing cs with
  | nil =>
    have : cs = [] := by
      simpa [parseMethods] using h.symm
    subst this
    rfl
  | cons m rest ih =>
    unfold parseMethods at h
    cases hm : parseSafeMethod m with
    | none => simp [hm] at h
    | some c =>
      rw [hm] at h
      cases hr : parseMethods rest with
      | error e => simp [hr, Except.map] at h
      | ok cs' =>
        rw [hr] at h
        have : cs = c :: cs' := by
          simpa [Except.map] using h.symm
        subst this
        simp only [List.all_cons, hm]
        rw [ih cs' hr]
        rfl

theorem parseMethods_total (methods : List String)
    (h : ∀ m ∈ methods, (parseSafeMethod m).isSome = true) :
    ∃ cs, parseMethods methods = Except.ok cs := by
  induction methods with
  | nil => exact ⟨[], rfl⟩
  | cons m rest ih =>
    have hm : (parseSafeMethod m).isSome = true := h m (by simp)
    cases hc : parseSafeMethod m with
    | none => rw [hc] at hm; simp at hm
    | some c =>
      obtain ⟨cs, hcs⟩ := ih (fun x hx => h x (by simp [hx]))
      exact ⟨c :: cs, by simp [parseMethods, hc, hcs, Except.map]⟩

theorem parseMethods_unknown (methods : List String)
    (h : ∃ m ∈ methods, parseSafeMethod m = none) :
    ∃ name, parseMethods methods = Except.error (ConfigError.unknownMethod name) := by
  induction methods with
  | nil => simp at h
  | cons m rest ih =>
    cases hc : parseSafeMethod m with
    | none => exact ⟨m, by simp [parseMethods, hc]⟩
    | some c =>
      obtain ⟨x, hx, hxn⟩ := h
      rcases List.mem_cons.mp hx with hxm | hxr
      · subst hxm
        rw [hc] at hxn
        exact absurd hxn (by simp)
      · obtain ⟨name, hname⟩ := ih ⟨x, hxr, hxn⟩
        exact ⟨name, by simp [parseMethods, hc, hname, Except.map]⟩

/-- Claim C4: the safe-mask filter returns the elementwise logical AND of
the per-criterion masks (each criterion a pure, independent function),
and an unknown criterion name yields a configuration error instead of
being silently ignored. -/
theorem safe_mask_and_unknown_method (cfg : SafeMaskConfig) (methods : List String)
    (obs : Observation N) :
    ((∀ m ∈ methods, (parseSafeMethod m).isSome = true) →
      ∃ mask, SafeMaskMaker.run cfg methods obs = Except.ok mask ∧
        ∀ i, mask i = methods.all (fun m =>
          ((parseSafeMethod m).map (fun c => criterionMask cfg obs c i)).getD true)) ∧
    ((∃ m ∈ methods, parseSafeMethod m = none) →
      ∃ name, SafeMaskMaker.run cfg methods obs =
        Except.error (ConfigError.unknownMethod name)) := by
  constructor
  · intro h
    obtain ⟨cs, hcs⟩ := parseMethods_total methods h
    refine ⟨fun i => cs.all (fun c => criterionMask cfg obs c i), ?_, ?_⟩
    · simp [SafeMaskMaker.run, hcs, Except.map]
    · intro i
      exact parseMethods_ok_all cfg obs methods cs hcs i
  · intro h
    obtain ⟨name, hname⟩ := parseMethods_unknown methods h
    exact ⟨name, by simp [SafeMaskMaker.run, hname, Except.map]⟩

/-- Criterion name unknown to the filter, used in the witness. -/
def unknownCritName : String := "edisp-bias"

/-- Sample safe-mask thresholds used in witnesses. -/
def cfgSample : SafeMaskConfig :=
  ⟨2, 1/10, 1⟩

theorem safe_mask_and_unknown_method_witness :
    (∃ mask, SafeMaskMaker.run cfgSample [offsetMaxName, aeffMaxName] obsFull =
        Except.ok mask ∧
      ∀ i, mask i = ([offsetMaxName, aeffMaxName]).all (fun m =>
        ((parseSafeMethod m).map (fun c => criterionMask cfgSample obsFull c i)).getD true)) ∧
    (∃ name, SafeMaskMaker.run cfgSample [unknownCritName] obsFull =
      Except.error (ConfigError.unknownMethod name)) :=
  ⟨(safe_mask_and_unknown_method cfgSample [offsetMaxName, aeffMaxName] obsFull).1
    (by decide),
   (safe_mask_and_unknown_method cfgSample [unknownCritName] obsFull).2
    ⟨unknownCritName, by simp, rfl⟩⟩

/-- Combined safe mask built from an already-resolved list of criteria:
the elementwise AND of the per-criterion masks. -/
def safeMaskOf (cfg : SafeMaskConfig) (obs : Observation N)
    (cs : List SafeMethod) : Fin N → Bool :=
  fun i => cs.all (fun c => criterionMask cfg obs c i)

/-- Number of valid (true) bins of a mask. -/
def validPixelCount (mask : Fin N → Bool) : ℕ :=
  (Finset.univ.filter (fun i => mask i = true)).card

theorem validPixelCount_mono (m1 m2 : Fin N → Bool)
    (h : ∀ i, m1 i = true → m2 i = true) :
    validPixelCount m1 ≤ validPixelCount m2 := by
  apply Finset.card_le_card
  intro i hi
  simp only [Finset.mem_filter, Finset.mem_univ, true_and] at hi ⊢
  exact h i hi

theorem criterionMask_tighter (cfg cfg' : SafeMaskConfig) (obs : Observation N)
    (hoff : cfg'.offset_max ≤ cfg.offset_max)
    (haeff : cfg.aeff_frac_min ≤ cfg'.aeff_frac_min)
    (hen : cfg.energy_min ≤ cfg'.energy_min) (c : SafeMethod) (i : Fin N)
    (h : criterionMask cfg' obs c i = true) : criterionMask cfg obs c i = true := by
  cases c with
  | offsetMax =>
    simp only [criterionMask, decide_eq_true_eq] at h ⊢
    linarith
  | aeffMax =>
    simp only [criterionMask, decide_eq_true_eq] at h ⊢
    linarith
  | bkgPeak =>
    simp only [criterionMask, decide_eq_true_eq] at h ⊢
    linarith

theorem safeMaskOf_tighter (cfg cfg' : SafeMaskConfig) (obs : Observation N)
    (cs : List SafeMethod) (hoff : cfg'.offset_max ≤ cfg.offset_max)
    (haeff : cfg.aeff_frac_min ≤ cfg'.aeff_frac_min)
    (hen : cfg.energy_min ≤ cfg'.energy_min) :
    validPixelCount (safeMaskOf cfg' obs cs) ≤ validPixelCount (safeMaskOf cfg obs cs) := by
  apply validPixelCount_mono
  intro i hi
  simp only [safeMaskOf, List.all_eq_true] at hi ⊢
  intro c hc
  exact criterionMask_tighter cfg cfg' obs hoff haeff hen c i (hi c hc)

/-- Claim C9: tightening any single safe-range criterion's threshold
(lower maximum offset, higher minimum effective-area fraction, higher
energy threshold) while holding the other thresholds fixed never
increases the number of valid bins of the combined mask. -/
theorem safe_mask_criteria_monotone (cfg cfg' : SafeMaskConfig)
    (obs : Observation N) (cs : List SafeMethod) :
    (cfg'.offset_max ≤ cfg.offset_max → cfg'.aeff_frac_min = cfg.aeff_frac_min →
      cfg'.energy_min = cfg.energy_min →
      validPixelCount (safeMaskOf cfg' obs cs) ≤
        validPixelCount (safeMaskOf cfg obs cs)) ∧
    (cfg.aeff_frac_min ≤ cfg'.aeff_frac_min → cfg'.offset_max = cfg.offset_max →
      cfg'.energy_min = cfg.energy_min →
      validPixelCount (safeMaskOf cfg' obs cs) ≤
        validPixelCount (safeMaskOf cfg obs cs)) ∧
    (cfg.energy_min ≤ cfg'.energy_min → cfg'.offset_max = cfg.offset_max →
      cfg'.aeff_frac_min = cfg.aeff_frac_min →
      validPixelCount (safeMaskOf cfg' obs cs) ≤
        validPixelCount (safeMaskOf cfg obs cs)) := by
  refine ⟨fun h1 h2 h3 => ?_, fun h1 h2 h3 => ?_, fun h1 h2 h3 => ?_⟩
  · exact safeMaskOf_tighter cfg cfg' obs cs h1 (le_of_eq h2.symm) (le_of_eq h3.symm)
  · exact safeMaskOf_tighter cfg cfg' obs cs (le_of_eq h2) h1 (le_of_eq h3.symm)
  · exact safeMaskOf_tighter cfg cfg' obs cs (le_of_eq h2) (le_of_eq h3.symm) h1

/-- Tightened-offset variant of the sample thresholds. -/
def cfgTightOffset : SafeMaskConfig :=
  ⟨1, 1/10, 1⟩

/-- Tightened-effective-area variant of the sample thresholds. -/
def cfgTightAeff : SafeMaskConfig :=
  ⟨2, 1/2, 1⟩

/-- Tightened-energy-threshold variant of the sample thresholds. -/
def cfgTightEnergy : SafeMaskConfig :=
  ⟨2, 1/10, 3⟩

theorem safe_mask_criteria_monotone_witness :
    validPixelCount (safeMaskOf cfgTightOffset obsFull [SafeMethod.offsetMax]) ≤
      validPixelCount (safeMaskOf cfgSample obsFull [SafeMethod.offsetMax]) ∧
    validPixelCount (safeMaskOf cfgTightAeff obsFull [SafeMethod.aeffMax]) ≤
      validPixelCount (safeMaskOf cfgSample obsFull [SafeMethod.aeffMax]) ∧
    validPixelCount (safeMaskOf cfgTightEnergy obsFull [SafeMethod.bkgPeak]) ≤
      validPixelCount (safeMaskOf cfgSample obsFull [SafeMethod.bkgPeak]) :=
  ⟨(safe_mask_criteria_monotone cfgSample cfgTightOffset obsFull [SafeMethod.offsetMax]).1
      (by norm_num [cfgTightOffset, cfgSample]) rfl rfl,
   (safe_mask_criteria_monotone cfgSample cfgTightAeff obsFull [SafeMethod.aeffMax]).2.1
      (by norm_num [cfgTightAeff, cfgSample]) rfl rfl,
   (safe_mask_criteria_monotone cfgSample cfgTightEnergy obsFull [SafeMethod.bkgPeak]).2.2
      (by norm_num [cfgTightEnergy, cfgSample]) rfl rfl⟩

/-- Modelled from the spec: failure of the background normalization
fit. -/
inductive NormError where
  | underconstrained : NormError

/-- Bins usable by the background-normalization fit: inside the
field-of-view exclusion mask (true = kept), marked safe, and with
positive predicted background. -/
def fovFitBins (ds : MapDataset N) (excl : Fin N → Bool) : List (Fin N) :=
  (List.finRange N).filter
    (fun i => excl i && ds.mask_safe i && decide (0 < ds.background i))

/-- Modelled from the spec: the scale-method background normalizer —
maximize the Poisson likelihood of a single multiplicative norm on the
predicted background over the non-excluded valid bins (closed form:
total observed counts over total predicted background), reporting an
underconstrained-fit failure when no usable bin remains. -/
def FoVBackgroundMaker.run (ds : MapDataset N) (excl : Fin N → Bool) :
    Except NormError ℚ :=
  match fovFitBins ds excl with
  | [] => Except.error NormError.underconstrained
  | i :: rest =>
    Except.ok (((i :: rest).map (fun j => ds.counts j)).sum /
      ((i :: rest).map (fun j => ds.background j)).sum)

/-- Modelled from the spec: the caller-selected policy applied to a
normalization outcome — only an explicit fallback policy converts a
failure into the default norm 1. -/
inductive FallbackPolicy where
  | surfaceFailure : FallbackPolicy
  | fallbackToOne : FallbackPolicy

/-- Apply the caller's policy to the normalizer's outcome. -/
def applyPolicy (pol : FallbackPolicy) (r : Except NormError ℚ) : Option ℚ :=
  match pol, r with
  | _, Except.ok q => some q
  | FallbackPolicy.surfaceFailure, Except.error _ => none
  | FallbackPolicy.fallbackToOne, Except.error _ => some 1

/-- Claim C5: when no non-excluded valid bin constrains the background
fit, the normalizer reports failure to the caller — it returns no norm
at all (in particular not the default 1); only the caller's explicitly
selected fallback policy may turn the failure into norm 1. -/
theorem fov_background_underconstrained_reports_failure (ds : MapDataset N)
    (excl : Fin N → Bool)
    (h : ∀ i, (excl i && ds.mask_safe i && decide (0 < ds.background i)) = false) :
    FoVBackgroundMaker.run ds excl = Except.error NormError.underconstrained ∧
      (∀ q, FoVBackgroundMaker.run ds excl ≠ Except.ok q) ∧
      applyPolicy FallbackPolicy.surfaceFailure (FoVBackgroundMaker.run ds excl) = none ∧
      applyPolicy FallbackPolicy.fallbackToOne (FoVBackgroundMaker.run ds excl) = some 1 := by
  have hemp : fovFitBins ds excl = [] := by
    apply List.filter_eq_nil_iff.mpr
    intro i _
    simp [h i]
  have hrun : FoVBackgroundMaker.run ds excl = Except.error NormError.underconstrained := by
    unfold FoVBackgroundMaker.run
    split
    · rfl
    · rename_i i rest heq
      rw [hemp] at heq
      exact absurd heq (by simp)
  refine ⟨hrun, fun q => ?_, ?_, ?_⟩
  · rw [hrun]
    simp
  · rw [hrun]
    rfl
  · rw [hrun]
    rfl

theorem fov_background_underconstrained_reports_failure_witness :
    FoVBackgroundMaker.run unsafeBinDs (fun _ => true) =
        Except.error NormError.underconstrained ∧
      (∀ q, FoVBackgroundMaker.run unsafeBinDs (fun _ => true) ≠ Except.ok q) ∧
      applyPolicy FallbackPolicy.surfaceFailure
        (FoVBackgroundMaker.run unsafeBinDs (fun _ => true)) = none ∧
      applyPolicy FallbackPolicy.fallbackToOne
        (FoVBackgroundMaker.run unsafeBinDs (fun _ => true)) = some 1 :=
  fov_background_underconstrained_reports_failure unsafeBinDs (fun _ => true)
    (by intro i; simp [unsafeBinDs])

/-- Fixed-radius smoothing kernel membership: bin j lies within the
correlation radius of bin i on the geometry's pixel grid. -/
def kernelHit (geom : Geometry N) (r : ℚ) (i j : Fin N) : Bool :=
  decide (((geom.pos i).1 - (geom.pos j).1) ^ 2 +
    ((geom.pos i).2 - (geom.pos j).2) ^ 2 ≤ r ^ 2)

/-- Convolution of an array with the fixed-radius kernel: the sum of the
array over the kernel footprint around each bin. -/
def smoothedSum (geom : Geometry N) (r : ℚ) (f : Fin N → ℚ) (i : Fin N) : ℚ :=
  ∑ j ∈ Finset.univ.filter (fun j => kernelHit geom r i j = true), f j

/-- Modelled from the spec: the Li & Ma-style significance of smoothed
counts n against smoothed background b, a closed-form expression in n
and b; square root and logarithm are passed in as abstract functions. -/
def limaSignificance (sqrtFn logFn : ℚ → ℚ) (n b : ℚ) : ℚ :=
  (if n < b then -1 else 1) * sqrtFn (2 * (n * logFn (n / b) - (n - b)))

/-- Output maps of the excess-map estimator; bins where the smoothed
exposure vanishes are masked out (none). -/
structure ExcessMaps (N : ℕ) where
  sqrt_ts : Fin N → Option ℚ
  npred_excess : Fin N → Option ℚ

/-- Modelled from the spec: the excess-map estimator — convolve counts
and background with the fixed-radius kernel, compute the Li & Ma-style
significance and the excess from the smoothed values by closed-form
formulas only, and mask out bins of zero smoothed exposure. -/
def ExcessMapEstimator.run (geom : Geometry N) (r : ℚ) (sqrtFn logFn : ℚ → ℚ)
    (ds : MapDataset N) : ExcessMaps N where
  sqrt_ts := fun i =>
    if smoothedSum geom r ds.exposure i = 0 then none
    else some (limaSignificance sqrtFn logFn (smoothedSum geom r ds.counts i)
      (smoothedSum geom r ds.background i))
  npred_excess := fun i =>
    if smoothedSum geom r ds.exposure i = 0 then none
    else some (smoothedSum geom r ds.counts i - smoothedSum geom r ds.background i)

/-- Claim C8: the excess/significance estimator is defined at exactly the
bins of nonzero smoothed exposure; there its significance is the
closed-form Li & Ma-style formula of the kernel-smoothed counts and
background (no model fitting, no iterative optimization enters), and
bins of zero smoothed exposure are masked out. -/
theorem excess_map_closed_form_defined (geom : Geometry N) (r : ℚ)
    (sqrtFn logFn : ℚ → ℚ) (ds : MapDataset N) (i : Fin N) :
    ((ExcessMapEstimator.run geom r sqrtFn logFn ds).sqrt_ts i ≠ none ↔
      smoothedSum geom r ds.exposure i ≠ 0) ∧
    (smoothedSum geom r ds.exposure i ≠ 0 →
      (ExcessMapEstimator.run geom r sqrtFn logFn ds).sqrt_ts i =
        some (limaSignificance sqrtFn logFn (smoothedSum geom r ds.counts i)
          (smoothedSum geom r ds.background i)) ∧
      (ExcessMapEstimator.run geom r sqrtFn logFn ds).npred_excess i =
        some (smoothedSum geom r ds.counts i - smoothedSum geom r ds.background i)) ∧
    (smoothedSum geom r ds.exposure i = 0 →
      (ExcessMapEstimator.run geom r sqrtFn logFn ds).sqrt_ts i = none ∧
      (ExcessMapEstimator.run geom r sqrtFn logFn ds).npred_excess i = none) := by
  refine ⟨⟨fun h1 => ?_, fun h1 => ?_⟩, fun h1 => ?_, fun h1 => ?_⟩
  · intro hz
    exact h1 (by simp [ExcessMapEstimator.run, hz])
  · simp [ExcessMapEstimator.run, h1]
  · exact ⟨by simp [ExcessMapEstimator.run, h1], by simp [ExcessMapEstimator.run, h1]⟩
  · exact ⟨by simp [ExcessMapEstimator.run, h1], by simp [ExcessMapEstimator.run, h1]⟩

/-- Dataset with unit exposure on its single bin, used in the excess-map
witness. -/
def unitExposureDs : MapDataset 1 :=
  ⟨fun _ => true, fun _ => 4, fun _ => 1, fun _ => 1, fun _ _ => 0,
    fun _ => true, fun _ => true⟩

theorem excess_map_closed_form_defined_witness :
    (ExcessMapEstimator.run geomOne 1 (fun x => x) (fun x => x) unitExposureDs).sqrt_ts 0 =
      some (limaSignificance (fun x => x) (fun x => x)
        (smoothedSum geomOne 1 unitExposureDs.counts 0)
        (smoothedSum geomOne 1 unitExposureDs.background 0)) ∧
    (ExcessMapEstimator.run geomOne 1 (fun x => x) (fun x => x)
        unitExposureDs).npred_excess 0 =
      some (smoothedSum geomOne 1 unitExposureDs.counts 0 -
        smoothedSum geomOne 1 unitExposureDs.background 0) :=
  (excess_map_closed_form_defined geomOne 1 (fun x => x) (fun x => x)
    unitExposureDs 0).2.1 (by
      have h : smoothedSum geomOne 1 unitExposureDs.exposure 0 = 1 := by
        rw [smoothedSum, Finset.sum_filter, Fin.sum_univ_one]
        norm_num [kernelHit, geomOne, unitExposureDs]
      rw [h]
      norm_num)
